import Mathlib

/-!
Verification of the data-access and seeding layer of the dashboard repository.

The repository contains two parallel implementations of the query layer: a
drizzle-orm one (`src/unnamed/part_003`, importing the schema of
`src/unnamed/part_002`) and a Prisma one (`src/unnamed/part_004`, with the
Prisma seeding stages in `src/app/lib/db.ts`).  The shallow embedding below
follows the drizzle implementation (`part_003`) for the query and seeding
operations; where the Prisma variant differs in a way a claim depends on
(the issuance order of the `fetchCardData` sub-queries), both variants are
modelled side by side.

Rows are modelled as structures over `String`/`Int`; the relational store is
a record of four row lists.  The single failure mode of the underlying store
("any underlying store failure", spec section 7) is modelled by a Boolean
`dbOk` parameter on the one operation whose claims are about failure
behaviour (`fetchInvoiceById`).  JavaScript's `parseInt` and SQL `LIKE`
pattern matching are embedded as executable functions.
-/

/-- Case-sensitive lexicographic comparison of character lists, used to model
the relational store's ordering of `varchar`/`date` columns (dates are
`YYYY-MM-DD` strings, for which lexicographic order is chronological). -/
def strLeB : List Char → List Char → Bool
  | [], _ => true
  | _, [] => false
  | c :: cs, d :: ds => if c = d then strLeB cs ds else decide (c < d)

/-- String comparison through `strLeB`. -/
def sLe (a b : String) : Bool := strLeB a.toList b.toList

/-- All suffixes of a character list (including itself and `[]`). -/
def charTails : List Char → List (List Char)
  | [] => [[]]
  | c :: t => (c :: t) :: charTails t

/-- SQL `LIKE` pattern matching with PostgreSQL's default escape character:
a backslash escapes the next pattern character, which then matches itself
literally (also `%` and `_`); an unescaped `%` matches any (possibly empty)
substring, an unescaped `_` matches any single character, and every other
pattern character matches itself, case-sensitively (PostgreSQL `LIKE`, as
issued by the drizzle implementation via `like(column, pattern)`).  A
pattern ending in a lone escape character is an error in PostgreSQL; the
patterns this code issues always end in `%`, so that state is unreachable
from them and the model makes it match nothing. -/
def likeMatch : List Char → List Char → Bool
  | [], t => t.isEmpty
  | p :: ps, t =>
    if p = '\\' then
      match ps, t with
      | e :: ps2, c :: ts => (e = c) && likeMatch ps2 ts
      | _, _ => false
    else if p = '%' then (charTails t).any (fun s => likeMatch ps s)
    else match t with
      | [] => false
      | c :: ts => (p = '_' || p = c) && likeMatch ps ts

/-- `sqlLike s pat` is SQL `s LIKE pat`. -/
def sqlLike (s pat : String) : Bool := likeMatch pat.toList s.toList

/-- Case-sensitive substring containment on character lists (specification
side: "contains the query as a substring"). -/
def containsSub : List Char → List Char → Bool
  | [], needle => needle.isPrefixOf []
  | c :: t, needle => needle.isPrefixOf (c :: t) || containsSub t needle

/-- Case-insensitive substring containment between strings (specification
side: "contains the query as a case-insensitive substring"). -/
def ciContains (hay needle : String) : Bool :=
  containsSub (hay.toList.map Char.toLower) (needle.toList.map Char.toLower)

/-- The characters JavaScript's `parseInt` skips before parsing: the ECMA
WhiteSpace set (TAB, VT, FF, SP, NBSP, ZWNBSP/FEFF and the Unicode
space-separator category) together with the LineTerminator set (LF, CR, LS,
PS).  Code points 9-13 cover TAB, LF, VT, FF, CR. -/
def jsWhitespace (c : Char) : Bool :=
  (9 ≤ c.toNat ∧ c.toNat ≤ 13) || c.toNat = 32 || c.toNat = 0xA0
  || c.toNat = 0x1680 || (0x2000 ≤ c.toNat ∧ c.toNat ≤ 0x200A)
  || c.toNat = 0x2028 || c.toNat = 0x2029 || c.toNat = 0x202F
  || c.toNat = 0x205F || c.toNat = 0x3000 || c.toNat = 0xFEFF

/-- Decimal digit value, if any (code point 48 is `'0'`). -/
def decDigit? (c : Char) : Option Nat :=
  if c.isDigit then some (c.toNat - 48) else none

/-- Hexadecimal digit value, if any (code points 97-102 are `'a'`-`'f'`,
65-70 are `'A'`-`'F'`). -/
def hexDigit? (c : Char) : Option Nat :=
  if c.isDigit then decDigit? c
  else if 97 ≤ c.toNat ∧ c.toNat ≤ 102 then some (c.toNat - 87)
  else if 65 ≤ c.toNat ∧ c.toNat ≤ 70 then some (c.toNat - 55)
  else none

/-- Greedily consume further digits, accumulating a value. -/
def takeDigits (dig : Char → Option Nat) (base : Nat) (acc : Nat) : List Char → Nat
  | [] => acc
  | c :: cs =>
    match dig c with
    | some d => takeDigits dig base (acc * base + d) cs
    | none => acc

/-- Parse a non-empty digit run at the head of the list (the value of the
longest digit run; `none` when the first character is not a digit). -/
def parseDigits (dig : Char → Option Nat) (base : Nat) : List Char → Option Nat
  | [] => none
  | c :: cs =>
    match dig c with
    | some d => some (takeDigits dig base d cs)
    | none => none

/-- Optional sign at the head of the character list. -/
def jsSign : List Char → Int × List Char
  | '-' :: t => (-1, t)
  | '+' :: t => (1, t)
  | t => (1, t)

/-- JavaScript's `parseInt(s)` with no radix argument: skip whitespace, read
an optional sign, then either a `0x`/`0X`-prefixed hexadecimal digit run or a
decimal digit run; trailing non-digit characters are ignored; `none` stands
for `NaN`. -/
def jsParseInt (s : String) : Option Int :=
  let cs0 := s.toList.dropWhile jsWhitespace
  let sc := jsSign cs0
  let mag : Option Nat :=
    match sc.2 with
    | '0' :: c :: rest =>
      if c = 'x' || c = 'X' then parseDigits hexDigit? 16 rest
      else parseDigits decDigit? 10 sc.2
    | t => parseDigits decDigit? 10 t
  mag.map (fun n => sc.1 * (n : Int))

/-- Insert thousands separators into a reversed (least-significant-first)
digit list. -/
def commaGroupRev : List Char → Nat → List Char
  | [], _ => []
  | c :: cs, k =>
    if k ≠ 0 && k % 3 = 0 then ',' :: c :: commaGroupRev cs (k + 1)
    else c :: commaGroupRev cs (k + 1)

/-- Modelled from the spec: `formatCurrency` lives in `app/lib/utils.ts`,
which is not under `src/`.  Spec section 4.3: a pure function converting an
integer amount in minor units (cents) to a localized currency string; the
section 8 example fixes the locale: `formatCurrency(150000) = "$1,500.00"`.
Claims only use this function opaquely (applied to an amount in cents). -/
def formatCurrency (minorUnits : Int) : String :=
  let sign := if minorUnits < 0 then "-" else ""
  let n := minorUnits.natAbs
  let dollars := n / 100
  let cents := n % 100
  let ds := (commaGroupRev (Nat.toDigits 10 dollars).reverse 0).reverse
  let centsStr := if cents < 10 then "0" ++ Nat.repr cents else Nat.repr cents
  sign ++ "$" ++ String.mk ds ++ "." ++ centsStr

/-- Modelled from the spec: `bcrypt` is an external hashing collaborator
(spec section 4.2 only requires that a hash of the plaintext is stored).  No
claim depends on the hash value, only on the seeding control flow around it. -/
def bcryptHash (password : String) (rounds : Nat) : String :=
  "$2b$" ++ Nat.repr rounds ++ "$" ++ password

/-- A row of the `users` table (`part_002` schema). -/
structure UserRow where
  id : String
  name : String
  email : String
  password : String
deriving DecidableEq, Repr

/-- A row of the `customers` table. -/
structure CustomerRow where
  id : String
  name : String
  email : String
  imageUrl : String
deriving DecidableEq, Repr

/-- A row of the `invoices` table: `amount` is an integer in cents, `date` a
`YYYY-MM-DD` string, `status` a varchar. -/
structure InvoiceRow where
  id : String
  customerId : String
  amount : Int
  status : String
  date : String
deriving DecidableEq, Repr

/-- A row of the `revenue` table. -/
structure RevenueRow where
  month : String
  revenue : Int
deriving DecidableEq, Repr

/-- The relational store: the four tables of the schema. -/
structure DataStore where
  users : List UserRow
  customers : List CustomerRow
  invoices : List InvoiceRow
  revenue : List RevenueRow
deriving DecidableEq, Repr

/-- An invoice row left-joined with its customer (`leftJoin(customers,
eq(invoices.customerId, customers.id))`): customer columns are `none` when no
customer row matches. -/
structure JoinedInvoice where
  id : String
  amount : Int
  date : String
  status : String
  name : Option String
  email : Option String
  imageUrl : Option String
deriving DecidableEq, Repr

/-- Join one invoice with the first customer whose `id` equals its
`customer_id`. -/
def joinOne (cs : List CustomerRow) (inv : InvoiceRow) : JoinedInvoice :=
  match cs.find? (fun c => c.id == inv.customerId) with
  | some c =>
    { id := inv.id, amount := inv.amount, date := inv.date, status := inv.status
    , name := some c.name, email := some c.email, imageUrl := some c.imageUrl }
  | none =>
    { id := inv.id, amount := inv.amount, date := inv.date, status := inv.status
    , name := none, email := none, imageUrl := none }

/-- The left join `invoices ⟕ customers` as issued by `fetchFilteredInvoices`,
`fetchInvoicesPages` and `fetchLatestInvoices`. -/
def joinRows (s : DataStore) : List JoinedInvoice :=
  s.invoices.map (joinOne s.customers)

/-- The search condition of `fetchFilteredInvoices` / `fetchInvoicesPages`
(`part_003` lines 221-227 and 266-272): an `or(...)` of case-sensitive SQL
`LIKE '%query%'` tests on the joined customer name, customer email and the
invoice status, plus — only when `parseInt(query)` is not `NaN`, drizzle's
`or` dropping the `undefined` branch otherwise — an equality test of the
amount against `parseInt(query)`.  A `LIKE` test on a `NULL` column (an
invoice whose customer is missing) is not true. -/
def matchesQuery (q : String) (j : JoinedInvoice) : Bool :=
  let pat := "%" ++ q ++ "%"
  (match j.name with | some n => sqlLike n pat | none => false)
  || (match j.email with | some e => sqlLike e pat | none => false)
  || sqlLike j.status pat
  || (match jsParseInt q with | some n => j.amount == n | none => false)

/-- `ORDER BY invoices.date DESC`: row `a` precedes row `b` when `b.date ≤
a.date` (dates are `YYYY-MM-DD` strings, compared lexicographically). -/
def dateDescRel (a b : JoinedInvoice) : Prop := sLe b.date a.date = true

instance : DecidableRel dateDescRel :=
  fun a b => inferInstanceAs (Decidable (sLe b.date a.date = true))

/-- `ORDER BY customers.name` (ascending). -/
def nameAscRel (a b : CustomerRow) : Prop := sLe a.name b.name = true

instance : DecidableRel nameAscRel :=
  fun a b => inferInstanceAs (Decidable (sLe a.name b.name = true))

/-- `const ITEMS_PER_PAGE = 6`. -/
def itemsPerPage : Nat := 6

/-- The full filtered result of the invoice search: the joined rows that
satisfy the search condition, ordered by date descending. -/
def filteredInvoicesSorted (s : DataStore) (q : String) : List JoinedInvoice :=
  List.insertionSort dateDescRel ((joinRows s).filter (matchesQuery q))

/-- The row shape returned by `fetchFilteredInvoices` after its transform
(`part_003` lines 247-255): the amount stays in cents, the date stays the
stored string. -/
structure InvoicesTableRow where
  id : String
  amount : Int
  date : String
  status : String
  name : Option String
  email : Option String
  image_url : Option String
deriving DecidableEq, Repr

/-- The per-row transform of `fetchFilteredInvoices`. -/
def toTableRow (j : JoinedInvoice) : InvoicesTableRow :=
  { id := j.id, amount := j.amount, date := j.date, status := j.status
  , name := j.name, email := j.email, image_url := j.imageUrl }

/-- `fetchFilteredInvoices(query, currentPage)` (`part_003` lines 214-262):
offset `(currentPage - 1) * 6`, limit `6`, over the filtered join ordered by
date descending. -/
def fetchFilteredInvoices (s : DataStore) (q : String) (currentPage : Nat) :
    List InvoicesTableRow :=
  (((filteredInvoicesSorted s q).drop ((currentPage - 1) * itemsPerPage)).take
    itemsPerPage).map toTableRow

/-- `fetchInvoicesPages(query)` (`part_003` lines 264-286): the count of rows
of the same filtered join, turned into `Math.ceil(count / 6)`. -/
def fetchInvoicesPages (s : DataStore) (q : String) : Nat :=
  (((joinRows s).filter (matchesQuery q)).length + (itemsPerPage - 1)) / itemsPerPage

/-- The row shape returned by `fetchInvoiceById`: the amount is converted to
major units by JavaScript's exact `/ 100` division, hence a rational. -/
structure InvoiceDetail where
  id : String
  customer_id : String
  amount : ℚ
  status : String
deriving DecidableEq, Repr

/-- The `select ... from invoices where eq(invoices.id, id) limit 1` issued by
`fetchInvoiceById`: fails when the underlying store fails (`dbOk = false`). -/
def selectInvoiceById (dbOk : Bool) (s : DataStore) (id : String) :
    Except String (List InvoiceRow) :=
  if dbOk then Except.ok ((s.invoices.filter (fun r => r.id == id)).take 1)
  else Except.error "connection error"

/-- The body of `fetchInvoiceById`'s `try` block (`part_003` lines 290-313):
select, throw `'Invoice not found.'` on an empty result, otherwise transform
with `amount: invoice.amount / 100`. -/
def fetchInvoiceByIdBody (dbOk : Bool) (s : DataStore) (id : String) :
    Except String InvoiceDetail :=
  match selectInvoiceById dbOk s id with
  | Except.error e => Except.error e
  | Except.ok rows =>
    match rows with
    | [] => Except.error "Invoice not found."
    | r :: _ =>
      Except.ok { id := r.id, customer_id := r.customerId
                , amount := (r.amount : ℚ) / 100, status := r.status }

/-- `fetchInvoiceById(id)` (`part_003` lines 288-318): the `catch` block
replaces every error thrown inside the `try` — the store failure as well as
the `'Invoice not found.'` error — by `'Failed to fetch invoice.'`. -/
def fetchInvoiceById (dbOk : Bool) (s : DataStore) (id : String) :
    Except String InvoiceDetail :=
  match fetchInvoiceByIdBody dbOk s id with
  | Except.ok v => Except.ok v
  | Except.error _ => Except.error "Failed to fetch invoice."

/-- The row shape returned by `fetchLatestInvoices`: the amount is formatted
(from cents) at return time. -/
structure LatestInvoiceRow where
  id : String
  amount : String
  name : Option String
  image_url : Option String
  email : Option String
deriving DecidableEq, Repr

/-- `fetchLatestInvoices()` (`part_003` lines 141-168): the 5 most recent
joined invoices by date descending, amount formatted via `formatCurrency`. -/
def fetchLatestInvoices (s : DataStore) : List LatestInvoiceRow :=
  ((List.insertionSort dateDescRel (joinRows s)).take 5).map (fun j =>
    { id := j.id, amount := formatCurrency j.amount, name := j.name
    , image_url := j.imageUrl, email := j.email })

/-- SQL `SUM(amount)` over a list of invoice rows: `NULL` (here `none`) when
the list is empty. -/
def sumAmountsOpt (l : List InvoiceRow) : Option Int :=
  if l.isEmpty then none else some ((l.map (fun i => i.amount)).sum)

/-- `Number(x) || 0` applied to a nullable sum: `Number(null)` is `0`, and
`v || 0` keeps a non-zero `v` and maps `0` to `0`. -/
def jsNumberOr0 : Option Int → Int
  | none => 0
  | some v => if v = 0 then 0 else v

/-- The record returned by `fetchCardData`. -/
structure CardData where
  numberOfCustomers : Nat
  numberOfInvoices : Nat
  totalPaidInvoices : String
  totalPendingInvoices : String
deriving DecidableEq, Repr

/-- `fetchCardData()` (`part_003` lines 170-211), value level: total invoice
count, total customer count, and the two status-filtered amount sums with
`Number(...) || 0` null-coercion and currency formatting.  (The issuance
order of the four sub-queries is modelled separately below.) -/
def fetchCardData (s : DataStore) : CardData :=
  { numberOfCustomers := s.customers.length
  , numberOfInvoices := s.invoices.length
  , totalPaidInvoices :=
      formatCurrency (jsNumberOr0 (sumAmountsOpt
        (s.invoices.filter (fun i => i.status == "paid"))))
  , totalPendingInvoices :=
      formatCurrency (jsNumberOr0 (sumAmountsOpt
        (s.invoices.filter (fun i => i.status == "pending")))) }

/-- The search condition of `fetchFilteredCustomers` (`part_003` lines
339-342): customer name or email `LIKE '%query%'`. -/
def customerMatches (q : String) (c : CustomerRow) : Bool :=
  sqlLike c.name ("%" ++ q ++ "%") || sqlLike c.email ("%" ++ q ++ "%")

/-- The row shape returned by `fetchFilteredCustomers`: invoice count plus
formatted pending and paid sums. -/
structure CustomerSummary where
  id : String
  name : String
  email : String
  image_url : String
  total_invoices : Nat
  total_pending : String
  total_paid : String
deriving DecidableEq, Repr

/-- The per-customer aggregation of `fetchFilteredCustomers` (`part_003`
lines 386-405): `invs` is the batch of invoices fetched for the matched id
set, and the `reduce`-built group of a customer is the sublist of batch
invoices carrying its id, in order — i.e. a filter; the group is counted and
summed by status, sums formatted as currency. -/
def customerSummaryOf (invs : List InvoiceRow) (c : CustomerRow) : CustomerSummary :=
  let ci := invs.filter (fun i => i.customerId == c.id)
  { id := c.id, name := c.name, email := c.email, image_url := c.imageUrl
  , total_invoices := ci.length
  , total_pending :=
      formatCurrency (((ci.filter (fun i => i.status == "pending")).map
        (fun i => i.amount)).sum)
  , total_paid :=
      formatCurrency (((ci.filter (fun i => i.status == "paid")).map
        (fun i => i.amount)).sum) }

/-- The customers matching the search, ordered by name (`part_003` lines
345-354). -/
def matchedCustomers (s : DataStore) (q : String) : List CustomerRow :=
  List.insertionSort nameAscRel (s.customers.filter (customerMatches q))

/-- The single batch of invoices fetched for the matched customer id set
(`inArray(invoices.customerId, customerIds)`, `part_003` lines 357-374). -/
def batchInvoices (s : DataStore) (q : String) : List InvoiceRow :=
  s.invoices.filter (fun i =>
    ((matchedCustomers s q).map (fun c => c.id)).contains i.customerId)

/-- `fetchFilteredCustomers(query)` (`part_003` lines 337-412): fetch the
matching customers ordered by name, batch-fetch the invoices whose
`customer_id` is in the matched id set, then group and aggregate in
application logic via `customerSummaryOf`. -/
def fetchFilteredCustomers (s : DataStore) (q : String) : List CustomerSummary :=
  (matchedCustomers s q).map (customerSummaryOf (batchInvoices s q))

/-- An entry of the seed users payload (`placeholder-data`): a plaintext
password to be hashed before storing. -/
structure SeedUser where
  id : String
  name : String
  email : String
  password : String
deriving DecidableEq, Repr

/-- An entry of the seed customers payload. -/
structure SeedCustomer where
  id : String
  name : String
  email : String
  image_url : String
deriving DecidableEq, Repr

/-- An entry of the seed invoices payload: no `id` — invoice ids are
generated by the store. -/
structure SeedInvoice where
  customer_id : String
  amount : Int
  status : String
  date : String
deriving DecidableEq, Repr

/-- An entry of the seed revenue payload. -/
structure SeedRevenue where
  month : String
  revenue : Int
deriving DecidableEq, Repr

/-- The whole seed payload (the repository's `placeholder-data.ts` is not
under `src/`; the seeding claims are settled for every payload). -/
structure SeedData where
  users : List SeedUser
  customers : List SeedCustomer
  invoices : List SeedInvoice
  revenue : List SeedRevenue
deriving DecidableEq, Repr

/-- Is a user with this id present? -/
def hasUserId (l : List UserRow) (id : String) : Bool := l.any (fun r => r.id == id)

/-- Is a customer with this id present? -/
def hasCustomerId (l : List CustomerRow) (id : String) : Bool := l.any (fun r => r.id == id)

/-- Is a revenue row with this month present? -/
def hasMonth (l : List RevenueRow) (month : String) : Bool := l.any (fun r => r.month == month)

/-- `seedUsers()` (`part_003` lines 7-31): for each payload user, check
whether a row with its id exists and insert only if not (the `Promise.all`
over independent per-user upserts is sequentialized in payload order). -/
def seedUsersGo (l : List SeedUser) (s : DataStore) : DataStore :=
  match l with
  | [] => s
  | u :: rest =>
    if hasUserId s.users u.id then seedUsersGo rest s
    else seedUsersGo rest
      { s with users := s.users ++
          [{ id := u.id, name := u.name, email := u.email
           , password := bcryptHash u.password 10 }] }

/-- The users seeding stage. -/
def seedUsersStep (pld : SeedData) (s : DataStore) : DataStore := seedUsersGo pld.users s

/-- `seedCustomers()` (`part_003` lines 33-55): insert-if-absent keyed by
customer id. -/
def seedCustomersGo (l : List SeedCustomer) (s : DataStore) : DataStore :=
  match l with
  | [] => s
  | c :: rest =>
    if hasCustomerId s.customers c.id then seedCustomersGo rest s
    else seedCustomersGo rest
      { s with customers := s.customers ++
          [{ id := c.id, name := c.name, email := c.email, imageUrl := c.image_url }] }

/-- The customers seeding stage. -/
def seedCustomersStep (pld : SeedData) (s : DataStore) : DataStore :=
  seedCustomersGo pld.customers s

/-- `seedRevenue()` (`part_003` lines 81-101): insert-if-absent keyed by
month. -/
def seedRevenueGo (l : List SeedRevenue) (s : DataStore) : DataStore :=
  match l with
  | [] => s
  | r :: rest =>
    if hasMonth s.revenue r.month then seedRevenueGo rest s
    else seedRevenueGo rest
      { s with revenue := s.revenue ++ [{ month := r.month, revenue := r.revenue }] }

/-- The revenue seeding stage. -/
def seedRevenueStep (pld : SeedData) (s : DataStore) : DataStore :=
  seedRevenueGo pld.revenue s

/-- `seedInvoices()` (`part_003` lines 57-79): if the invoice count is
positive, skip entirely (and report zero inserted); otherwise bulk-insert the
payload invoices (ids are generated by the store; the generated id is not
observed by any claim and is modelled as `""`). -/
def seedInvoicesStep (pld : SeedData) (s : DataStore) : DataStore :=
  if s.invoices.length > 0 then s
  else
    { s with invoices := s.invoices ++ pld.invoices.map (fun i =>
        { id := "", customerId := i.customer_id, amount := i.amount
        , status := i.status, date := i.date }) }

/-- The four seeding stages composed in the source's fixed order. -/
def fullSeed (pld : SeedData) (s : DataStore) : DataStore :=
  seedInvoicesStep pld (seedRevenueStep pld (seedCustomersStep pld (seedUsersStep pld s)))

/-- The four seeding stages, named. -/
inductive SeedStage where
  | users
  | customers
  | revenue
  | invoices
deriving DecidableEq, Repr

/-- The fixed order in which `seedDatabase()` awaits its stages. -/
def stageOrder : List SeedStage :=
  [SeedStage.users, SeedStage.customers, SeedStage.revenue, SeedStage.invoices]

/-- Run one seeding stage against a store in which the underlying store
fails during exactly the stages with `failsAt stage = true` (spec section 7:
"any underlying store failure"); a failing stage raises its own error. -/
def runStage (failsAt : SeedStage → Bool) (stage : SeedStage)
    (f : DataStore → DataStore) (s : DataStore) : Except SeedStage DataStore :=
  if failsAt stage then Except.error stage else Except.ok (f s)

/-- `seedDatabase()` (`part_003` lines 103-117): await the four stages in
fixed order inside one `try`; the `catch` logs and re-throws the same error,
so the first stage failure is propagated as-is and no later stage runs.  The
second component records which stages were executed (attempted), in order. -/
def seedDatabase (failsAt : SeedStage → Bool) (pld : SeedData) (s : DataStore) :
    Except SeedStage DataStore × List SeedStage :=
  match runStage failsAt SeedStage.users (seedUsersStep pld) s with
  | Except.error e => (Except.error e, [SeedStage.users])
  | Except.ok s1 =>
    match runStage failsAt SeedStage.customers (seedCustomersStep pld) s1 with
    | Except.error e => (Except.error e, [SeedStage.users, SeedStage.customers])
    | Except.ok s2 =>
      match runStage failsAt SeedStage.revenue (seedRevenueStep pld) s2 with
      | Except.error e =>
        (Except.error e, [SeedStage.users, SeedStage.customers, SeedStage.revenue])
      | Except.ok s3 =>
        match runStage failsAt SeedStage.invoices (seedInvoicesStep pld) s3 with
        | Except.error e => (Except.error e, stageOrder)
        | Except.ok s4 => (Except.ok s4, stageOrder)

/-- The four aggregate sub-queries of `fetchCardData`. -/
inductive CardSubQuery where
  | invoiceCount
  | customerCount
  | paidSum
  | pendingSum
deriving DecidableEq, Repr

/-- Issuance structure of the drizzle `fetchCardData` (`part_003` lines
170-211): the four query builders are created before the single
`Promise.all` await and start together when it subscribes to them, so no
sub-query's issuance waits on another sub-query's completion (`none` for
all). -/
def drizzleCardIssueDependency : CardSubQuery → Option CardSubQuery := fun _ => none

/-- Issuance structure of the Prisma `fetchCardData` (`part_004` lines
63-113): `invoiceCountPromise`, `customerCountPromise` and the paid
aggregate are created up front, but the pending aggregate is first issued
inside the `.then` continuation attached to the paid aggregate (lines
77-90), i.e. only after the paid sub-query completes. -/
def prismaCardIssueDependency : CardSubQuery → Option CardSubQuery
  | CardSubQuery.pendingSum => some CardSubQuery.paidSum
  | _ => none

theorem nil_mem_charTails (t : List Char) : [] ∈ charTails t := by
  induction t with
  | nil => simp [charTails]
  | cons c ts ih => simp [charTails, ih]

theorem likeMatch_percent_cons (ps : List Char) (t : List Char) :
    likeMatch ('%' :: ps) t = (charTails t).any (fun s => likeMatch ps s) := by
  rw [likeMatch.eq_def]
  simp

theorem likeMatch_single_percent (t : List Char) : likeMatch ['%'] t = true := by
  rw [likeMatch_percent_cons]
  refine List.any_eq_true.mpr ⟨[], nil_mem_charTails t, ?_⟩
  simp [likeMatch]

theorem likeMatch_double_percent (t : List Char) : likeMatch ['%', '%'] t = true := by
  rw [likeMatch_percent_cons]
  refine List.any_eq_true.mpr ⟨[], nil_mem_charTails t, ?_⟩
  simp [likeMatch_single_percent]

theorem likeMatch_literal_percent (q : List Char)
    (hq : ∀ c ∈ q, c ≠ '%' ∧ c ≠ '_' ∧ c ≠ '\\') :
    ∀ t, likeMatch (q ++ ['%']) t = true ↔ q.isPrefixOf t = true := by
  induction q with
  | nil =>
    intro t
    simp [likeMatch_single_percent, List.isPrefixOf]
  | cons a q2 ih =>
    intro t
    obtain ⟨ha1, ha2, ha3⟩ := hq a (by simp)
    cases t with
    | nil =>
      rw [List.cons_append, likeMatch.eq_def]
      simp [ha1, ha3, List.isPrefixOf]
    | cons c ts =>
      have ih2 := ih (fun c hc => hq c (by simp [hc])) ts
      rw [List.cons_append, likeMatch.eq_def]
      simp [ha1, ha2, ha3, List.isPrefixOf, ih2]

theorem containsSub_iff_tails (t q : List Char) :
    containsSub t q = true ↔ ∃ s ∈ charTails t, q.isPrefixOf s = true := by
  induction t with
  | nil =>
    simp [containsSub, charTails]
  | cons c ts ih =>
    simp only [containsSub, charTails, Bool.or_eq_true, ih, List.mem_cons]
    constructor
    · rintro (h | ⟨s, hs, hp⟩)
      · exact ⟨c :: ts, Or.inl rfl, h⟩
      · exact ⟨s, Or.inr hs, hp⟩
    · rintro ⟨s, (rfl | hs), hp⟩
      · exact Or.inl hp
      · exact Or.inr ⟨s, hs, hp⟩

theorem sqlLike_wrapped_eq_containsSub (s q : String)
    (hq : ∀ c ∈ q.toList, c ≠ '%' ∧ c ≠ '_' ∧ c ≠ '\\') :
    sqlLike s ("%" ++ q ++ "%") = true ↔ containsSub s.toList q.toList = true := by
  have hpat : ("%" ++ q ++ "%").toList = '%' :: (q.toList ++ ['%']) := rfl
  rw [sqlLike, hpat, likeMatch_percent_cons, List.any_eq_true, containsSub_iff_tails]
  constructor
  · rintro ⟨tl, htl, hm⟩
    exact ⟨tl, htl, (likeMatch_literal_percent q.toList hq tl).mp hm⟩
  · rintro ⟨tl, htl, hm⟩
    exact ⟨tl, htl, (likeMatch_literal_percent q.toList hq tl).mpr hm⟩

deriving instance DecidableEq for Except

theorem matchesQuery_characterization (q : String) (j : JoinedInvoice)
    (hq : ∀ c ∈ q.toList, c ≠ '%' ∧ c ≠ '_' ∧ c ≠ '\\') :
    matchesQuery q j = true ↔
      ((∃ n, j.name = some n ∧ containsSub n.toList q.toList = true)
       ∨ (∃ e, j.email = some e ∧ containsSub e.toList q.toList = true)
       ∨ containsSub j.status.toList q.toList = true
       ∨ (∃ v, jsParseInt q = some v ∧ j.amount = v)) := by
  have hname : (match j.name with
      | some n => sqlLike n ("%" ++ q ++ "%") | none => false) = true ↔
      (∃ n, j.name = some n ∧ containsSub n.toList q.toList = true) := by
    cases hn : j.name with
    | none => simp
    | some n => simp [sqlLike_wrapped_eq_containsSub n q hq]
  have hemail : (match j.email with
      | some e => sqlLike e ("%" ++ q ++ "%") | none => false) = true ↔
      (∃ e, j.email = some e ∧ containsSub e.toList q.toList = true) := by
    cases he : j.email with
    | none => simp
    | some e => simp [sqlLike_wrapped_eq_containsSub e q hq]
  have hstatus := sqlLike_wrapped_eq_containsSub j.status q hq
  have hamount : (match jsParseInt q with
      | some v => j.amount == v | none => false) = true ↔
      (∃ v, jsParseInt q = some v ∧ j.amount = v) := by
    cases hv : jsParseInt q with
    | none => simp
    | some v => simp [beq_iff_eq]
  simp only [matchesQuery, Bool.or_eq_true]
  rw [hname, hemail, hstatus, hamount]
  simp [or_assoc]

/-- Are all characters decimal digits? -/
def allDecDigits : List Char → Bool
  | [] => true
  | c :: cs => (decDigit? c).isSome && allDecDigits cs

/-- Specification-side "the query parses cleanly as an integer": the whole
string is an optional sign followed by decimal digits, with nothing else. -/
def cleanInt? (s : String) : Option Int :=
  let sc := jsSign s.toList
  match sc.2 with
  | [] => none
  | ds => if allDecDigits ds then some (sc.1 * (takeDigits decDigit? 10 0 ds : Int)) else none

/-- A store with one customer and one pending invoice, exercising the
case-sensitivity of the search. -/
def claim3StoreA : DataStore :=
  { users := []
  , customers := [{ id := "c1", name := "Alice", email := "alice@example.com"
                  , imageUrl := "img1" }]
  , invoices := [{ id := "i1", customerId := "c1", amount := 500
                 , status := "pending", date := "2024-01-01" }]
  , revenue := [] }

/-- A store with one customer and one invoice of amount 12 cents, exercising
the `parseInt` prefix behaviour and the wildcard behaviour of the search. -/
def claim3StoreB : DataStore :=
  { users := []
  , customers := [{ id := "c2", name := "Zed", email := "z@example.org"
                  , imageUrl := "img2" }]
  , invoices := [{ id := "i2", customerId := "c2", amount := 12
                 , status := "paid", date := "2024-01-02" }]
  , revenue := [] }

/-- Claim C3 is false as stated, at three explicit inputs against the
drizzle implementation.  (1) Query `"PENDING"` on a store whose only invoice
has status `"pending"`: the status contains the query as a case-insensitive
substring, so the claim predicts a match, but `fetchFilteredInvoices`
returns nothing — drizzle issues case-sensitive `LIKE`, not `ILIKE`.
(2) Query `"12abc"` on a store whose only invoice has amount 12: the query
does not parse cleanly as an integer (`cleanInt?` rejects it) and is
contained in no field, so the claim predicts no match, but the row is
returned — JavaScript's `parseInt` extracts the prefix `12` and the amount
clause is applied.  (3) Query `"%"`: contained in no field and not a number,
so the claim predicts no match, but `LIKE '%%%'` matches every row. -/
theorem claim3_counterexample :
    fetchFilteredInvoices claim3StoreA "PENDING" 1 = []
    ∧ ciContains "pending" "PENDING" = true
    ∧ (fetchFilteredInvoices claim3StoreB "12abc" 1).map (fun r => r.id) = ["i2"]
    ∧ cleanInt? "12abc" = none
    ∧ ciContains "Zed" "12abc" = false
    ∧ ciContains "z@example.org" "12abc" = false
    ∧ ciContains "paid" "12abc" = false
    ∧ (fetchFilteredInvoices claim3StoreB "%" 1).map (fun r => r.id) = ["i2"]
    ∧ ciContains "Zed" "%" = false
    ∧ ciContains "z@example.org" "%" = false
    ∧ ciContains "paid" "%" = false
    ∧ cleanInt? "%" = none := by
  decide

/-- Claim C3, amended: for every query string free of the SQL `LIKE`
metacharacters `%`, `_` and the default escape character backslash (queries
containing those are interpreted as pattern syntax by the unescaped
`LIKE '%query%'` the code issues, not as literal text), the search condition
of `fetchFilteredInvoices` matches a joined invoice row if and only if the
joined customer's name, the customer's email, or the invoice status contains
the query as a case-SENSITIVE substring (SQL `LIKE`; a missing joined
customer matches nothing on name/email), OR the invoice amount equals the
integer that JavaScript's `parseInt` extracts from the query — the amount
clause is applied whenever `parseInt` succeeds on a prefix of the query (not
only when the whole query is an integer), and a query with no parseable
integer prefix silently omits the amount clause. -/
theorem claim3_amended_match_iff (q : String) (j : JoinedInvoice)
    (hq : ∀ c ∈ q.toList, c ≠ '%' ∧ c ≠ '_' ∧ c ≠ '\\') :
    matchesQuery q j = true ↔
      ((∃ n, j.name = some n ∧ containsSub n.toList q.toList = true)
       ∨ (∃ e, j.email = some e ∧ containsSub e.toList q.toList = true)
       ∨ containsSub j.status.toList q.toList = true
       ∨ (∃ v, jsParseInt q = some v ∧ j.amount = v)) :=
  matchesQuery_characterization q j hq

/-- Witness for the amended claim C3 at the concrete query `"ali"` and a
concrete joined row. -/
theorem claim3_amended_witness :
    (∀ c ∈ ("ali" : String).toList, c ≠ '%' ∧ c ≠ '_' ∧ c ≠ '\\')
    ∧ (matchesQuery "ali"
        { id := "i1", amount := 500, date := "2024-01-01", status := "pending"
        , name := some "alice", email := some "alice@example.com"
        , imageUrl := some "img1" } = true ↔
      ((∃ n, (some "alice" : Option String) = some n
          ∧ containsSub n.toList ("ali" : String).toList = true)
       ∨ (∃ e, (some "alice@example.com" : Option String) = some e
          ∧ containsSub e.toList ("ali" : String).toList = true)
       ∨ containsSub ("pending" : String).toList ("ali" : String).toList = true
       ∨ (∃ v, jsParseInt "ali" = some v ∧ (500 : Int) = v))) :=
  ⟨by decide, claim3_amended_match_iff "ali"
    { id := "i1", amount := 500, date := "2024-01-01", status := "pending"
    , name := some "alice", email := some "alice@example.com"
    , imageUrl := some "img1" } (by decide)⟩

theorem strLeB_total : ∀ a b : List Char, strLeB a b = true ∨ strLeB b a = true := by
  intro a
  induction a with
  | nil => intro b; left; cases b <;> rfl
  | cons c cs ih =>
    intro b
    cases b with
    | nil => right; rfl
    | cons d ds =>
      by_cases hcd : c = d
      · subst hcd
        rcases ih ds with h | h
        · left; simpa [strLeB] using h
        · right; simpa [strLeB] using h
      · rcases lt_or_gt_of_ne hcd with h | h
        · left; simp [strLeB, hcd, h]
        · right; simp [strLeB, Ne.symm hcd, h]

theorem strLeB_trans : ∀ a b c : List Char,
    strLeB a b = true → strLeB b c = true → strLeB a c = true := by
  intro a
  induction a with
  | nil => intro b c _ _; cases c <;> rfl
  | cons x xs ih =>
    intro b c h1 h2
    cases b with
    | nil => simp [strLeB] at h1
    | cons y ys =>
      cases c with
      | nil => simp [strLeB] at h2
      | cons z zs =>
        by_cases hxy : x = y <;> by_cases hyz : y = z
        · subst hxy; subst hyz
          simp only [strLeB, if_pos rfl] at h1 h2 ⊢
          exact ih ys zs h1 h2
        · subst hxy
          simp only [strLeB, if_pos rfl, if_neg hyz, decide_eq_true_eq] at h1 h2 ⊢
          exact h2
        · subst hyz
          simp only [strLeB, if_neg hxy, decide_eq_true_eq] at h1 ⊢
          exact h1
        · simp only [strLeB, if_neg hxy, if_neg hyz, decide_eq_true_eq] at h1 h2
          have hxz : x < z := lt_trans h1 h2
          simp [strLeB, ne_of_lt hxz, hxz]

instance : IsTotal JoinedInvoice dateDescRel :=
  ⟨fun a b => strLeB_total b.date.toList a.date.toList⟩

instance : IsTrans JoinedInvoice dateDescRel :=
  ⟨fun _ _ _ h1 h2 => strLeB_trans _ _ _ h2 h1⟩

instance : IsTotal CustomerRow nameAscRel :=
  ⟨fun a b => strLeB_total a.name.toList b.name.toList⟩

instance : IsTrans CustomerRow nameAscRel :=
  ⟨fun _ _ _ h1 h2 => strLeB_trans _ _ _ h1 h2⟩

theorem joinOne_id (cs : List CustomerRow) (inv : InvoiceRow) :
    (joinOne cs inv).id = inv.id := by
  rcases hfind : cs.find? (fun c => c.id == inv.customerId) with _ | c <;>
    simp [joinOne, hfind]

theorem joinOne_amount (cs : List CustomerRow) (inv : InvoiceRow) :
    (joinOne cs inv).amount = inv.amount := by
  rcases hfind : cs.find? (fun c => c.id == inv.customerId) with _ | c <;>
    simp [joinOne, hfind]

theorem joinRows_map_id (s : DataStore) :
    (joinRows s).map (fun j => j.id) = s.invoices.map (fun i => i.id) := by
  rw [joinRows, List.map_map]
  exact List.map_congr_left (fun a _ => joinOne_id s.customers a)

theorem filteredInvoicesSorted_length (s : DataStore) (q : String) :
    (filteredInvoicesSorted s q).length = ((joinRows s).filter (matchesQuery q)).length :=
  (List.perm_insertionSort dateDescRel _).length_eq

theorem filteredInvoicesSorted_nodup_ids (s : DataStore) (q : String)
    (h : (s.invoices.map (fun i => i.id)).Nodup) :
    ((filteredInvoicesSorted s q).map (fun j => j.id)).Nodup := by
  have h1 : ((joinRows s).map (fun j => j.id)).Nodup := by
    rw [joinRows_map_id]; exact h
  have h2 : (((joinRows s).filter (matchesQuery q)).map (fun j => j.id)).Nodup :=
    h1.sublist (List.Sublist.map _ (List.filter_sublist _))
  have h3 : ((filteredInvoicesSorted s q).map (fun j => j.id)).Perm
      (((joinRows s).filter (matchesQuery q)).map (fun j => j.id)) :=
    (List.perm_insertionSort dateDescRel _).map _
  exact h3.nodup_iff.mpr h2

/-- Claim C5: for every store and query string, `fetchInvoicesPages(query)`
returns `ceil(n / 6)` where `n` is the number of invoice rows matching the
same filter predicate used by `fetchFilteredInvoices` (the length of the
full filtered result); equivalently `pages × 6 ≥ n > (pages − 1) × 6`. -/
theorem claim5_pages_ceiling (s : DataStore) (q : String) :
    fetchInvoicesPages s q = ((filteredInvoicesSorted s q).length + 5) / 6
    ∧ fetchInvoicesPages s q * 6 ≥ (filteredInvoicesSorted s q).length
    ∧ ((filteredInvoicesSorted s q).length : Int)
        > ((fetchInvoicesPages s q : Int) - 1) * 6 := by
  have hlen := filteredInvoicesSorted_length s q
  rw [fetchInvoicesPages, itemsPerPage, ← hlen]
  refine ⟨rfl, ?_, ?_⟩ <;> omega

/-- A store with two invoices on distinct dates, for the pagination
witness. -/
def claim6Store : DataStore :=
  { users := []
  , customers := [{ id := "c1", name := "Alice", email := "alice@example.com"
                  , imageUrl := "img1" }]
  , invoices :=
      [ { id := "i1", customerId := "c1", amount := 100, status := "paid"
        , date := "2024-01-01" }
      , { id := "i2", customerId := "c1", amount := 200, status := "pending"
        , date := "2024-02-01" } ]
  , revenue := [] }

/-- Claim C6: when the stored invoice ids are distinct (the primary-key
invariant), pages 1 and 2 of `fetchFilteredInvoices` for a fixed query carry
disjoint id sets; their concatenation is exactly the first 12 rows of the
full filtered result and is ordered by date descending (so re-sorting the
union by date descending reconstructs those rows); every page — any page
number — has at most 6 rows; and every page is itself ordered by date
descending. -/
theorem claim6_pagination (s : DataStore) (q : String)
    (h : (s.invoices.map (fun i => i.id)).Nodup) :
    (∀ x ∈ (fetchFilteredInvoices s q 1).map (fun r => r.id),
        x ∉ (fetchFilteredInvoices s q 2).map (fun r => r.id))
    ∧ fetchFilteredInvoices s q 1 ++ fetchFilteredInvoices s q 2
        = ((filteredInvoicesSorted s q).map toTableRow).take 12
    ∧ List.Pairwise (fun a b => sLe b.date a.date = true)
        (fetchFilteredInvoices s q 1 ++ fetchFilteredInvoices s q 2)
    ∧ (∀ page, (fetchFilteredInvoices s q page).length ≤ 6)
    ∧ (∀ page, List.Pairwise (fun a b => sLe b.date a.date = true)
        (fetchFilteredInvoices s q page)) := by
  have hconcat : fetchFilteredInvoices s q 1 ++ fetchFilteredInvoices s q 2
      = ((filteredInvoicesSorted s q).map toTableRow).take 12 := by
    rw [fetchFilteredInvoices, fetchFilteredInvoices, itemsPerPage]
    norm_num
    exact (List.take_add (List.map toTableRow (filteredInvoicesSorted s q)) 6 6).symm
  have hnodup12 : ((((filteredInvoicesSorted s q).map toTableRow).take 12).map
      (fun r => r.id)).Nodup := by
    have hm : (((filteredInvoicesSorted s q).map toTableRow).map (fun r => r.id))
        = (filteredInvoicesSorted s q).map (fun j => j.id) := by
      rw [List.map_map]; rfl
    have : ((((filteredInvoicesSorted s q).map toTableRow).take 12).map
        (fun r => r.id)).Sublist
        ((((filteredInvoicesSorted s q).map toTableRow)).map (fun r => r.id)) :=
      List.Sublist.map _ (List.take_sublist _ _)
    rw [hm] at this
    exact (filteredInvoicesSorted_nodup_ids s q h).sublist this
  have hsorted : List.Pairwise dateDescRel (filteredInvoicesSorted s q) :=
    List.sorted_insertionSort dateDescRel _
  have hmapped : List.Pairwise (fun a b : InvoicesTableRow => sLe b.date a.date = true)
      ((filteredInvoicesSorted s q).map toTableRow) :=
    List.pairwise_map.mpr (hsorted.imp (fun hab => hab))
  refine ⟨?_, hconcat, ?_, ?_, ?_⟩
  · intro x hx1 hx2
    have hsplit : ((fetchFilteredInvoices s q 1).map (fun r => r.id) ++
        (fetchFilteredInvoices s q 2).map (fun r => r.id)).Nodup := by
      rw [← List.map_append, hconcat]; exact hnodup12
    exact (List.nodup_append.mp hsplit).2.2 hx1 hx2
  · rw [hconcat]
    exact hmapped.sublist (List.take_sublist _ _)
  · intro page
    rw [fetchFilteredInvoices, List.length_map, itemsPerPage]
    simp
  · intro page
    rw [fetchFilteredInvoices]
    refine hmapped.sublist ?_
    exact List.Sublist.map _ ((List.take_sublist _ _).trans (List.drop_sublist _ _))

/-- Witness for claim C6 at a concrete two-invoice store and the empty
query. -/
theorem claim6_witness :
    ((claim6Store.invoices.map (fun i => i.id)).Nodup)
    ∧ ((∀ x ∈ (fetchFilteredInvoices claim6Store "" 1).map (fun r => r.id),
        x ∉ (fetchFilteredInvoices claim6Store "" 2).map (fun r => r.id))
    ∧ fetchFilteredInvoices claim6Store "" 1 ++ fetchFilteredInvoices claim6Store "" 2
        = ((filteredInvoicesSorted claim6Store "").map toTableRow).take 12
    ∧ List.Pairwise (fun a b => sLe b.date a.date = true)
        (fetchFilteredInvoices claim6Store "" 1 ++ fetchFilteredInvoices claim6Store "" 2)
    ∧ (∀ page, (fetchFilteredInvoices claim6Store "" page).length ≤ 6)
    ∧ (∀ page, List.Pairwise (fun a b => sLe b.date a.date = true)
        (fetchFilteredInvoices claim6Store "" page))) :=
  ⟨by decide, claim6_pagination claim6Store "" (by decide)⟩


theorem customerMatches_empty (c : CustomerRow) : customerMatches "" c = true := by
  show (likeMatch ['%', '%'] c.name.toList || likeMatch ['%', '%'] c.email.toList) = true
  simp [likeMatch_double_percent]

theorem customerSummaryOf_id (invs : List InvoiceRow) (c : CustomerRow) :
    (customerSummaryOf invs c).id = c.id := rfl

theorem customerSummaryOf_total_invoices (invs : List InvoiceRow) (c : CustomerRow) :
    (customerSummaryOf invs c).total_invoices
      = (invs.filter (fun i => i.customerId == c.id)).length := rfl

theorem customerSummaryOf_total_pending (invs : List InvoiceRow) (c : CustomerRow) :
    (customerSummaryOf invs c).total_pending
      = formatCurrency ((((invs.filter (fun i => i.customerId == c.id)).filter
          (fun i => i.status == "pending")).map (fun i => i.amount)).sum) := rfl

theorem customerSummaryOf_total_paid (invs : List InvoiceRow) (c : CustomerRow) :
    (customerSummaryOf invs c).total_paid
      = formatCurrency ((((invs.filter (fun i => i.customerId == c.id)).filter
          (fun i => i.status == "paid")).map (fun i => i.amount)).sum) := rfl

theorem matchedCustomers_empty_perm (s : DataStore) :
    (matchedCustomers s "").Perm s.customers := by
  rw [matchedCustomers, List.filter_eq_self.mpr (fun c _ => customerMatches_empty c)]
  exact List.perm_insertionSort nameAscRel s.customers

theorem batchInvoices_filter_eq (s : DataStore) (q : String) (c : CustomerRow)
    (hc : c ∈ matchedCustomers s q) :
    (batchInvoices s q).filter (fun i => i.customerId == c.id)
      = s.invoices.filter (fun i => i.customerId == c.id) := by
  rw [batchInvoices, List.filter_filter]
  refine List.filter_congr (fun i _ => ?_)
  cases hq : (i.customerId == c.id) with
  | false => rw [Bool.false_and]
  | true =>
    rw [Bool.true_and]
    have hic : i.customerId = c.id := by simpa using hq
    rw [hic]
    exact List.elem_iff.mpr (List.mem_map.mpr ⟨c, hc, rfl⟩)

/-- Claim C7: when the stored customer ids are distinct (the primary-key
invariant), `fetchFilteredCustomers("")` returns one row per customer (the
returned id list is a permutation of the customer id list); each row's
`total_invoices` is the number of stored invoices carrying that customer's
id, and its `total_pending` / `total_paid` are the currency formatting of
the sums, in cents, of that customer's invoice amounts with status
`'pending'` / `'paid'`; and no invoice row contributes to more than one
returned row (each invoice's `customer_id` equals at most one returned id). -/
theorem claim7_filtered_customers (s : DataStore)
    (h : (s.customers.map (fun c => c.id)).Nodup) :
    ((fetchFilteredCustomers s "").map (fun r => r.id)).Perm
        (s.customers.map (fun c => c.id))
    ∧ (∀ row ∈ fetchFilteredCustomers s "",
        row.total_invoices
          = (s.invoices.filter (fun i => i.customerId == row.id)).length
        ∧ row.total_pending = formatCurrency
            ((((s.invoices.filter (fun i => i.customerId == row.id)).filter
              (fun i => i.status == "pending")).map (fun i => i.amount)).sum)
        ∧ row.total_paid = formatCurrency
            ((((s.invoices.filter (fun i => i.customerId == row.id)).filter
              (fun i => i.status == "paid")).map (fun i => i.amount)).sum))
    ∧ (∀ inv ∈ s.invoices,
        ((fetchFilteredCustomers s "").map (fun r => r.id)).count inv.customerId ≤ 1) := by
  have hids : (fetchFilteredCustomers s "").map (fun r => r.id)
      = (matchedCustomers s "").map (fun c => c.id) := by
    rw [fetchFilteredCustomers, List.map_map]
    exact List.map_congr_left (fun c _ => rfl)
  have hidsperm : ((fetchFilteredCustomers s "").map (fun r => r.id)).Perm
      (s.customers.map (fun c => c.id)) := by
    rw [hids]; exact (matchedCustomers_empty_perm s).map _
  refine ⟨hidsperm, ?_, ?_⟩
  · intro row hrow
    rw [fetchFilteredCustomers, List.mem_map] at hrow
    obtain ⟨c, hc, hrowc⟩ := hrow
    have hbatch := batchInvoices_filter_eq s "" c hc
    subst hrowc
    refine ⟨?_, ?_, ?_⟩
    · rw [customerSummaryOf_total_invoices, customerSummaryOf_id, hbatch]
    · rw [customerSummaryOf_total_pending, customerSummaryOf_id, hbatch]
    · rw [customerSummaryOf_total_paid, customerSummaryOf_id, hbatch]
  · intro inv _
    have hnodup : ((fetchFilteredCustomers s "").map (fun r => r.id)).Nodup :=
      hidsperm.nodup_iff.mpr h
    exact List.nodup_iff_count_le_one.mp hnodup inv.customerId

/-- A store with two customers and three invoices, for the customer-table
witness. -/
def claim7Store : DataStore :=
  { users := []
  , customers :=
      [ { id := "c1", name := "Alice", email := "alice@example.com", imageUrl := "img1" }
      , { id := "c2", name := "Bob", email := "bob@example.com", imageUrl := "img2" } ]
  , invoices :=
      [ { id := "i1", customerId := "c1", amount := 1000, status := "paid"
        , date := "2024-01-01" }
      , { id := "i2", customerId := "c1", amount := 500, status := "pending"
        , date := "2024-01-02" }
      , { id := "i3", customerId := "c2", amount := 700, status := "paid"
        , date := "2024-01-03" } ]
  , revenue := [] }

/-- Witness for claim C7 at a concrete two-customer store. -/
theorem claim7_witness :
    ((claim7Store.customers.map (fun c => c.id)).Nodup)
    ∧ (((fetchFilteredCustomers claim7Store "").map (fun r => r.id)).Perm
        (claim7Store.customers.map (fun c => c.id))
    ∧ (∀ row ∈ fetchFilteredCustomers claim7Store "",
        row.total_invoices
          = (claim7Store.invoices.filter (fun i => i.customerId == row.id)).length
        ∧ row.total_pending = formatCurrency
            ((((claim7Store.invoices.filter (fun i => i.customerId == row.id)).filter
              (fun i => i.status == "pending")).map (fun i => i.amount)).sum)
        ∧ row.total_paid = formatCurrency
            ((((claim7Store.invoices.filter (fun i => i.customerId == row.id)).filter
              (fun i => i.status == "paid")).map (fun i => i.amount)).sum))
    ∧ (∀ inv ∈ claim7Store.invoices,
        ((fetchFilteredCustomers claim7Store "").map (fun r => r.id)).count
          inv.customerId ≤ 1)) :=
  ⟨by decide, claim7_filtered_customers claim7Store (by decide)⟩

/-- Claim C10: for every store in which no invoice has status `'paid'`
(respectively `'pending'`), `fetchCardData` still returns a value, and the
`NULL` aggregate sum is coerced to `0` by `Number(...) || 0`, so the
corresponding card is the currency formatting of `0` (never `NaN`, never an
error). -/
theorem claim10_card_data_zero (s : DataStore) :
    ((∀ i ∈ s.invoices, i.status ≠ "paid") →
      (fetchCardData s).totalPaidInvoices = formatCurrency 0)
    ∧ ((∀ i ∈ s.invoices, i.status ≠ "pending") →
      (fetchCardData s).totalPendingInvoices = formatCurrency 0) := by
  constructor
  · intro hpaid
    have h1 : s.invoices.filter (fun i => i.status == "paid") = [] :=
      List.filter_eq_nil_iff.mpr (fun a ha => by simpa using hpaid a ha)
    show formatCurrency (jsNumberOr0 (sumAmountsOpt
      (s.invoices.filter (fun i => i.status == "paid")))) = formatCurrency 0
    rw [h1]
    rfl
  · intro hpending
    have h1 : s.invoices.filter (fun i => i.status == "pending") = [] :=
      List.filter_eq_nil_iff.mpr (fun a ha => by simpa using hpending a ha)
    show formatCurrency (jsNumberOr0 (sumAmountsOpt
      (s.invoices.filter (fun i => i.status == "pending")))) = formatCurrency 0
    rw [h1]
    rfl

/-- A store whose only invoice is pending, for the card-data witness. -/
def claim10Store : DataStore :=
  { users := []
  , customers := [{ id := "c1", name := "Alice", email := "alice@example.com"
                  , imageUrl := "img1" }]
  , invoices := [{ id := "i1", customerId := "c1", amount := 500
                 , status := "pending", date := "2024-01-01" }]
  , revenue := [] }

/-- Witness for claim C10 at a store with one pending and no paid invoice. -/
theorem claim10_witness :
    (∀ i ∈ claim10Store.invoices, i.status ≠ "paid")
    ∧ (fetchCardData claim10Store).totalPaidInvoices = formatCurrency 0 :=
  ⟨by decide, (claim10_card_data_zero claim10Store).1 (by decide)⟩

/-- A store with one invoice, used to exhibit the indistinguishable errors
of `fetchInvoiceById`. -/
def claim1Store : DataStore :=
  { users := []
  , customers := [{ id := "c1", name := "Alice", email := "alice@example.com"
                  , imageUrl := "img1" }]
  , invoices := [{ id := "i1", customerId := "c1", amount := 500
                 , status := "pending", date := "2024-01-01" }]
  , revenue := [] }

/-- Claim C1 is false as stated, at an explicit input: looking up the
missing id `"missing"` against a healthy store raises exactly the same
error, `'Failed to fetch invoice.'`, as the same lookup against a failing
store — the inner `'Invoice not found.'` error is caught by the function's
own catch-all and replaced — so a caller cannot distinguish 'no such
invoice' from 'store failure' from the raised error. -/
theorem claim1_counterexample :
    fetchInvoiceById true claim1Store "missing"
      = Except.error "Failed to fetch invoice."
    ∧ fetchInvoiceById false claim1Store "missing"
      = Except.error "Failed to fetch invoice." := by
  decide

/-- Claim C1, amended: for every id that matches no invoice row,
`fetchInvoiceById(id)` does fail, but the failure raised to the caller is
the same generic `'Failed to fetch invoice.'` error that an underlying
store failure produces: the `'Invoice not found.'` error thrown inside the
`try` block is swallowed by the operation's own catch-all and re-raised
generically, so the not-found condition is NOT signalled distinctly. -/
theorem claim1_amended_not_found_generic (s : DataStore) (id : String)
    (h : ∀ inv ∈ s.invoices, inv.id ≠ id) :
    fetchInvoiceById true s id = Except.error "Failed to fetch invoice."
    ∧ fetchInvoiceById false s id = Except.error "Failed to fetch invoice." := by
  have hf : s.invoices.filter (fun r => r.id == id) = [] :=
    List.filter_eq_nil_iff.mpr (fun a ha => by simpa using h a ha)
  constructor
  · simp [fetchInvoiceById, fetchInvoiceByIdBody, selectInvoiceById, hf]
  · rfl

/-- Witness for the amended claim C1 at the concrete store and the missing
id `"nope"`. -/
theorem claim1_amended_witness :
    (∀ inv ∈ claim1Store.invoices, inv.id ≠ "nope")
    ∧ (fetchInvoiceById true claim1Store "nope"
        = Except.error "Failed to fetch invoice."
      ∧ fetchInvoiceById false claim1Store "nope"
        = Except.error "Failed to fetch invoice.") :=
  ⟨by decide, claim1_amended_not_found_generic claim1Store "nope" (by decide)⟩

theorem jsNumberOr0_sumAmountsOpt (l : List InvoiceRow) :
    jsNumberOr0 (sumAmountsOpt l) = (l.map (fun i => i.amount)).sum := by
  cases l with
  | nil => rfl
  | cons a t =>
    show jsNumberOr0 (some ((List.map (fun i => i.amount) (a :: t)).sum)) = _
    rw [jsNumberOr0]
    split
    · omega
    · rfl

theorem mem_filteredInvoicesSorted_amount (s : DataStore) (q : String)
    (j : JoinedInvoice) (hj : j ∈ filteredInvoicesSorted s q) :
    ∃ src ∈ s.invoices, j.id = src.id ∧ j.amount = src.amount := by
  rw [filteredInvoicesSorted, List.mem_insertionSort] at hj
  have hj2 : j ∈ joinRows s := List.mem_of_mem_filter hj
  rw [joinRows, List.mem_map] at hj2
  obtain ⟨src, hsrc, hjeq⟩ := hj2
  exact ⟨src, hsrc, by rw [← hjeq, joinOne_id], by rw [← hjeq, joinOne_amount]⟩

/-- Claim C8: for an id whose point lookup finds an invoice row with stored
amount `a` (an integer in cents), `fetchInvoiceById` returns that row with
amount `a / 100` (conversion to major units, exact rational division); and
no other read operation over invoice amounts applies this division —
`fetchFilteredInvoices` returns the stored cents unchanged,
`fetchLatestInvoices` hands the stored cents to `formatCurrency`,
`fetchCardData`'s aggregates are the sums of the stored cents handed to
`formatCurrency`, and `fetchFilteredCustomers` (for every query) hands the
per-customer sums of the stored cents to `formatCurrency`.  (The remaining
read operations, `fetchRevenue` and `fetchCustomers`, touch no invoice
amount.) -/
theorem claim8_amount_units (s : DataStore) (id : String) (inv : InvoiceRow)
    (h : (s.invoices.filter (fun r => r.id == id)).head? = some inv) :
    fetchInvoiceById true s id = Except.ok
      { id := inv.id, customer_id := inv.customerId
      , amount := (inv.amount : ℚ) / 100, status := inv.status }
    ∧ (∀ q page r, r ∈ fetchFilteredInvoices s q page →
        ∃ src ∈ s.invoices, r.id = src.id ∧ r.amount = src.amount)
    ∧ (∀ r ∈ fetchLatestInvoices s,
        ∃ src ∈ s.invoices, r.id = src.id ∧ r.amount = formatCurrency src.amount)
    ∧ (fetchCardData s).totalPaidInvoices
        = formatCurrency (((s.invoices.filter (fun i => i.status == "paid")).map
            (fun i => i.amount)).sum)
    ∧ (fetchCardData s).totalPendingInvoices
        = formatCurrency (((s.invoices.filter (fun i => i.status == "pending")).map
            (fun i => i.amount)).sum)
    ∧ (∀ q row, row ∈ fetchFilteredCustomers s q →
        row.total_pending = formatCurrency
          ((((s.invoices.filter (fun i => i.customerId == row.id)).filter
            (fun i => i.status == "pending")).map (fun i => i.amount)).sum)
        ∧ row.total_paid = formatCurrency
          ((((s.invoices.filter (fun i => i.customerId == row.id)).filter
            (fun i => i.status == "paid")).map (fun i => i.amount)).sum)) := by
  refine ⟨?pointLookup, ?filteredList, ?latestList, ?paidCard, ?pendingCard,
    ?customersTable⟩
  case pointLookup =>
    obtain ⟨rest, hrest⟩ := List.head?_eq_some_iff.mp h
    simp [fetchInvoiceById, fetchInvoiceByIdBody, selectInvoiceById, hrest]
  case filteredList =>
    intro q page r hr
    rw [fetchFilteredInvoices, List.mem_map] at hr
    obtain ⟨j, hj, hje⟩ := hr
    have hjL : j ∈ filteredInvoicesSorted s q :=
      List.mem_of_mem_drop (List.mem_of_mem_take hj)
    obtain ⟨src, hsrc, hid, hamt⟩ := mem_filteredInvoicesSorted_amount s q j hjL
    exact ⟨src, hsrc, by rw [← hje, toTableRow, hid], by rw [← hje, toTableRow, hamt]⟩
  case latestList =>
    intro r hr
    rw [fetchLatestInvoices, List.mem_map] at hr
    obtain ⟨j, hj, hje⟩ := hr
    have hjL : j ∈ joinRows s := by
      have := List.mem_of_mem_take hj
      rwa [List.mem_insertionSort] at this
    rw [joinRows, List.mem_map] at hjL
    obtain ⟨src, hsrc, hjeq⟩ := hjL
    refine ⟨src, hsrc, ?_, ?_⟩
    · rw [← hje, ← hjeq, joinOne_id]
    · rw [← hje, ← hjeq, joinOne_amount]
  case paidCard =>
    show formatCurrency (jsNumberOr0 (sumAmountsOpt _)) = _
    rw [jsNumberOr0_sumAmountsOpt]
  case pendingCard =>
    show formatCurrency (jsNumberOr0 (sumAmountsOpt _)) = _
    rw [jsNumberOr0_sumAmountsOpt]
  case customersTable =>
    intro q row hrow
    rw [fetchFilteredCustomers, List.mem_map] at hrow
    obtain ⟨c, hc, hrowc⟩ := hrow
    have hbatch := batchInvoices_filter_eq s q c hc
    subst hrowc
    constructor
    · rw [customerSummaryOf_total_pending, customerSummaryOf_id, hbatch]
    · rw [customerSummaryOf_total_paid, customerSummaryOf_id, hbatch]

/-- A store with one invoice of 1099 cents, for the unit-conversion
witness. -/
def claim8Store : DataStore :=
  { users := []
  , customers := [{ id := "c1", name := "Alice", email := "alice@example.com"
                  , imageUrl := "img1" }]
  , invoices := [{ id := "i1", customerId := "c1", amount := 1099
                 , status := "paid", date := "2024-01-01" }]
  , revenue := [] }

/-- Witness for claim C8 at a store whose invoice `"i1"` stores 1099 cents. -/
theorem claim8_witness :
    ((claim8Store.invoices.filter (fun r => r.id == "i1")).head?
      = some { id := "i1", customerId := "c1", amount := 1099
             , status := "paid", date := "2024-01-01" })
    ∧ (fetchInvoiceById true claim8Store "i1" = Except.ok
        { id := "i1", customer_id := "c1"
        , amount := ((1099 : Int) : ℚ) / 100, status := "paid" }
      ∧ (∀ q page r, r ∈ fetchFilteredInvoices claim8Store q page →
          ∃ src ∈ claim8Store.invoices, r.id = src.id ∧ r.amount = src.amount)
      ∧ (∀ r ∈ fetchLatestInvoices claim8Store,
          ∃ src ∈ claim8Store.invoices,
            r.id = src.id ∧ r.amount = formatCurrency src.amount)
      ∧ (fetchCardData claim8Store).totalPaidInvoices
          = formatCurrency (((claim8Store.invoices.filter
              (fun i => i.status == "paid")).map (fun i => i.amount)).sum)
      ∧ (fetchCardData claim8Store).totalPendingInvoices
          = formatCurrency (((claim8Store.invoices.filter
              (fun i => i.status == "pending")).map (fun i => i.amount)).sum)
      ∧ (∀ q row, row ∈ fetchFilteredCustomers claim8Store q →
          row.total_pending = formatCurrency
            ((((claim8Store.invoices.filter (fun i => i.customerId == row.id)).filter
              (fun i => i.status == "pending")).map (fun i => i.amount)).sum)
          ∧ row.total_paid = formatCurrency
            ((((claim8Store.invoices.filter (fun i => i.customerId == row.id)).filter
              (fun i => i.status == "paid")).map (fun i => i.amount)).sum))) :=
  ⟨by decide, claim8_amount_units claim8Store "i1"
    { id := "i1", customerId := "c1", amount := 1099
    , status := "paid", date := "2024-01-01" } (by decide)⟩

theorem seedUsersGo_customers (l : List SeedUser) (s : DataStore) :
    (seedUsersGo l s).customers = s.customers := by
  induction l generalizing s with
  | nil => rfl
  | cons u rest ih => rw [seedUsersGo]; split <;> exact ih _

theorem seedUsersGo_invoices (l : List SeedUser) (s : DataStore) :
    (seedUsersGo l s).invoices = s.invoices := by
  induction l generalizing s with
  | nil => rfl
  | cons u rest ih => rw [seedUsersGo]; split <;> exact ih _

theorem seedUsersGo_revenue (l : List SeedUser) (s : DataStore) :
    (seedUsersGo l s).revenue = s.revenue := by
  induction l generalizing s with
  | nil => rfl
  | cons u rest ih => rw [seedUsersGo]; split <;> exact ih _

theorem seedCustomersGo_users (l : List SeedCustomer) (s : DataStore) :
    (seedCustomersGo l s).users = s.users := by
  induction l generalizing s with
  | nil => rfl
  | cons c rest ih => rw [seedCustomersGo]; split <;> exact ih _

theorem seedCustomersGo_invoices (l : List SeedCustomer) (s : DataStore) :
    (seedCustomersGo l s).invoices = s.invoices := by
  induction l generalizing s with
  | nil => rfl
  | cons c rest ih => rw [seedCustomersGo]; split <;> exact ih _

theorem seedCustomersGo_revenue (l : List SeedCustomer) (s : DataStore) :
    (seedCustomersGo l s).revenue = s.revenue := by
  induction l generalizing s with
  | nil => rfl
  | cons c rest ih => rw [seedCustomersGo]; split <;> exact ih _

theorem seedRevenueGo_users (l : List SeedRevenue) (s : DataStore) :
    (seedRevenueGo l s).users = s.users := by
  induction l generalizing s with
  | nil => rfl
  | cons r rest ih => rw [seedRevenueGo]; split <;> exact ih _

theorem seedRevenueGo_customers (l : List SeedRevenue) (s : DataStore) :
    (seedRevenueGo l s).customers = s.customers := by
  induction l generalizing s with
  | nil => rfl
  | cons r rest ih => rw [seedRevenueGo]; split <;> exact ih _

theorem seedRevenueGo_invoices (l : List SeedRevenue) (s : DataStore) :
    (seedRevenueGo l s).invoices = s.invoices := by
  induction l generalizing s with
  | nil => rfl
  | cons r rest ih => rw [seedRevenueGo]; split <;> exact ih _

theorem seedInvoicesStep_users (pld : SeedData) (s : DataStore) :
    (seedInvoicesStep pld s).users = s.users := by
  rw [seedInvoicesStep]; split <;> rfl

theorem seedInvoicesStep_customers (pld : SeedData) (s : DataStore) :
    (seedInvoicesStep pld s).customers = s.customers := by
  rw [seedInvoicesStep]; split <;> rfl

theorem seedInvoicesStep_revenue (pld : SeedData) (s : DataStore) :
    (seedInvoicesStep pld s).revenue = s.revenue := by
  rw [seedInvoicesStep]; split <;> rfl

theorem seedUsersGo_mono (l : List SeedUser) (s : DataStore) (x : String)
    (h : hasUserId s.users x = true) : hasUserId (seedUsersGo l s).users x = true := by
  induction l generalizing s with
  | nil => exact h
  | cons u rest ih =>
    rw [seedUsersGo]
    split
    · exact ih s h
    · refine ih _ ?_
      show hasUserId (s.users ++ _) x = true
      rw [hasUserId] at h ⊢
      rw [List.any_append, h, Bool.true_or]

theorem seedUsersGo_present (l : List SeedUser) (s : DataStore) :
    ∀ u ∈ l, hasUserId (seedUsersGo l s).users u.id = true := by
  induction l generalizing s with
  | nil => intro u hu; cases hu
  | cons v rest ih =>
    intro u hu
    rcases List.mem_cons.mp hu with rfl | hu2
    · rw [seedUsersGo]
      split
      · next hpres => exact seedUsersGo_mono rest s u.id hpres
      · refine seedUsersGo_mono rest _ u.id ?_
        show hasUserId (s.users ++ _) u.id = true
        rw [hasUserId, List.any_append]
        simp
    · rw [seedUsersGo]; split <;> exact ih _ u hu2

theorem seedUsersGo_skip (l : List SeedUser) (s : DataStore)
    (h : ∀ u ∈ l, hasUserId s.users u.id = true) : seedUsersGo l s = s := by
  induction l with
  | nil => rfl
  | cons u rest ih =>
    rw [seedUsersGo, if_pos (h u (List.mem_cons_self u rest))]
    exact ih (fun v hv => h v (List.mem_cons_of_mem u hv))

theorem seedCustomersGo_mono (l : List SeedCustomer) (s : DataStore) (x : String)
    (h : hasCustomerId s.customers x = true) :
    hasCustomerId (seedCustomersGo l s).customers x = true := by
  induction l generalizing s with
  | nil => exact h
  | cons c rest ih =>
    rw [seedCustomersGo]
    split
    · exact ih s h
    · refine ih _ ?_
      show hasCustomerId (s.customers ++ _) x = true
      rw [hasCustomerId] at h ⊢
      rw [List.any_append, h, Bool.true_or]

theorem seedCustomersGo_present (l : List SeedCustomer) (s : DataStore) :
    ∀ c ∈ l, hasCustomerId (seedCustomersGo l s).customers c.id = true := by
  induction l generalizing s with
  | nil => intro c hc; cases hc
  | cons v rest ih =>
    intro c hc
    rcases List.mem_cons.mp hc with rfl | hc2
    · rw [seedCustomersGo]
      split
      · next hpres => exact seedCustomersGo_mono rest s c.id hpres
      · refine seedCustomersGo_mono rest _ c.id ?_
        show hasCustomerId (s.customers ++ _) c.id = true
        rw [hasCustomerId, List.any_append]
        simp
    · rw [seedCustomersGo]; split <;> exact ih _ c hc2

theorem seedCustomersGo_skip (l : List SeedCustomer) (s : DataStore)
    (h : ∀ c ∈ l, hasCustomerId s.customers c.id = true) : seedCustomersGo l s = s := by
  induction l with
  | nil => rfl
  | cons c rest ih =>
    rw [seedCustomersGo, if_pos (h c (List.mem_cons_self c rest))]
    exact ih (fun v hv => h v (List.mem_cons_of_mem c hv))

theorem seedRevenueGo_mono (l : List SeedRevenue) (s : DataStore) (x : String)
    (h : hasMonth s.revenue x = true) : hasMonth (seedRevenueGo l s).revenue x = true := by
  induction l generalizing s with
  | nil => exact h
  | cons r rest ih =>
    rw [seedRevenueGo]
    split
    · exact ih s h
    · refine ih _ ?_
      show hasMonth (s.revenue ++ _) x = true
      rw [hasMonth] at h ⊢
      rw [List.any_append, h, Bool.true_or]

theorem seedRevenueGo_present (l : List SeedRevenue) (s : DataStore) :
    ∀ r ∈ l, hasMonth (seedRevenueGo l s).revenue r.month = true := by
  induction l generalizing s with
  | nil => intro r hr; cases hr
  | cons v rest ih =>
    intro r hr
    rcases List.mem_cons.mp hr with rfl | hr2
    · rw [seedRevenueGo]
      split
      · next hpres => exact seedRevenueGo_mono rest s r.month hpres
      · refine seedRevenueGo_mono rest _ r.month ?_
        show hasMonth (s.revenue ++ _) r.month = true
        rw [hasMonth, List.any_append]
        simp
    · rw [seedRevenueGo]; split <;> exact ih _ r hr2

theorem seedRevenueGo_skip (l : List SeedRevenue) (s : DataStore)
    (h : ∀ r ∈ l, hasMonth s.revenue r.month = true) : seedRevenueGo l s = s := by
  induction l with
  | nil => rfl
  | cons r rest ih =>
    rw [seedRevenueGo, if_pos (h r (List.mem_cons_self r rest))]
    exact ih (fun v hv => h v (List.mem_cons_of_mem r hv))

theorem seedInvoicesStep_ne_nil (pld : SeedData) (s : DataStore)
    (h : pld.invoices ≠ []) : (seedInvoicesStep pld s).invoices ≠ [] := by
  rw [seedInvoicesStep]
  split
  · next hlen => exact List.length_pos.mp (by omega)
  · show s.invoices ++ _ ≠ []
    intro hcontra
    rcases List.append_eq_nil.mp hcontra with ⟨_, hmap⟩
    exact h (List.map_eq_nil_iff.mp hmap)

theorem seedInvoicesStep_skip (pld : SeedData) (s : DataStore)
    (h : s.invoices ≠ []) : seedInvoicesStep pld s = s := by
  rw [seedInvoicesStep, if_pos]
  exact List.length_pos.mpr h

theorem fullSeed_idem (pld : SeedData) (s : DataStore) (hne : pld.invoices ≠ []) :
    fullSeed pld (fullSeed pld s) = fullSeed pld s := by
  have hu : (fullSeed pld s).users = (seedUsersGo pld.users s).users := by
    rw [fullSeed, seedInvoicesStep_users, seedRevenueStep, seedRevenueGo_users,
      seedCustomersStep, seedCustomersGo_users, seedUsersStep]
  have hc : (fullSeed pld s).customers
      = (seedCustomersGo pld.customers (seedUsersStep pld s)).customers := by
    rw [fullSeed, seedInvoicesStep_customers, seedRevenueStep, seedRevenueGo_customers,
      seedCustomersStep]
  have hr : (fullSeed pld s).revenue
      = (seedRevenueGo pld.revenue (seedCustomersStep pld (seedUsersStep pld s))).revenue := by
    rw [fullSeed, seedInvoicesStep_revenue, seedRevenueStep]
  have huskip : seedUsersGo pld.users (fullSeed pld s) = fullSeed pld s := by
    refine seedUsersGo_skip _ _ (fun u huu => ?_)
    rw [hu]
    exact seedUsersGo_present pld.users s u huu
  have hcskip : seedCustomersGo pld.customers (fullSeed pld s) = fullSeed pld s := by
    refine seedCustomersGo_skip _ _ (fun c hcc => ?_)
    rw [hc]
    exact seedCustomersGo_present pld.customers _ c hcc
  have hrskip : seedRevenueGo pld.revenue (fullSeed pld s) = fullSeed pld s := by
    refine seedRevenueGo_skip _ _ (fun r hrr => ?_)
    rw [hr]
    exact seedRevenueGo_present pld.revenue _ r hrr
  have hine : (fullSeed pld s).invoices ≠ [] := by
    rw [fullSeed]
    exact seedInvoicesStep_ne_nil pld _ hne
  rw [fullSeed, seedUsersStep, huskip, seedCustomersStep, hcskip,
    seedRevenueStep, hrskip]
  exact seedInvoicesStep_skip pld _ hine

/-- Claim C4: when the seed payload lists at least one invoice (the only
configuration the drizzle bulk insert accepts), running `seedDatabase()`
twice in succession — with no store failures — leaves the row counts of the
`users`, `customers`, `revenue` and `invoices` tables unchanged after the
second run: users/customers/revenue seeding inserts nothing on re-run
(insert-if-absent by key finds every key present), and invoice seeding
short-circuits because the invoice table is non-empty after the first run. -/
theorem claim4_seed_idempotent (pld : SeedData) (s s1 s2 : DataStore)
    (hne : pld.invoices ≠ [])
    (h1 : (seedDatabase (fun _ => false) pld s).1 = Except.ok s1)
    (h2 : (seedDatabase (fun _ => false) pld s1).1 = Except.ok s2) :
    s2.users.length = s1.users.length
    ∧ s2.customers.length = s1.customers.length
    ∧ s2.revenue.length = s1.revenue.length
    ∧ s2.invoices.length = s1.invoices.length := by
  have hrun : ∀ st : DataStore,
      (seedDatabase (fun _ => false) pld st).1 = Except.ok (fullSeed pld st) :=
    fun st => rfl
  rw [hrun s] at h1
  rw [hrun s1] at h2
  have e1 : fullSeed pld s = s1 := Except.ok.inj h1
  have e2 : fullSeed pld s1 = s2 := Except.ok.inj h2
  have : s2 = s1 := by
    rw [← e2, ← e1]
    exact fullSeed_idem pld s hne
  rw [this]
  exact ⟨rfl, rfl, rfl, rfl⟩

/-- A concrete seed payload for the idempotence witness. -/
def claim4Payload : SeedData :=
  { users := [{ id := "u1", name := "User", email := "u@example.com", password := "pw" }]
  , customers := [{ id := "c1", name := "Cust", email := "c@example.com"
                  , image_url := "img" }]
  , invoices := [{ customer_id := "c1", amount := 500, status := "pending"
                 , date := "2024-01-01" }]
  , revenue := [{ month := "Jan", revenue := 2000 }] }

/-- The empty store the idempotence witness seeds into. -/
def claim4EmptyStore : DataStore :=
  { users := [], customers := [], invoices := [], revenue := [] }

/-- Witness for claim C4: seeding the empty store twice with the concrete
payload leaves all four row counts unchanged after the second run. -/
theorem claim4_witness :
    (claim4Payload.invoices ≠ [])
    ∧ (seedDatabase (fun _ => false) claim4Payload claim4EmptyStore).1
        = Except.ok (fullSeed claim4Payload claim4EmptyStore)
    ∧ (seedDatabase (fun _ => false) claim4Payload
        (fullSeed claim4Payload claim4EmptyStore)).1
        = Except.ok (fullSeed claim4Payload (fullSeed claim4Payload claim4EmptyStore))
    ∧ ((fullSeed claim4Payload (fullSeed claim4Payload claim4EmptyStore)).users.length
        = (fullSeed claim4Payload claim4EmptyStore).users.length
      ∧ (fullSeed claim4Payload (fullSeed claim4Payload claim4EmptyStore)).customers.length
        = (fullSeed claim4Payload claim4EmptyStore).customers.length
      ∧ (fullSeed claim4Payload (fullSeed claim4Payload claim4EmptyStore)).revenue.length
        = (fullSeed claim4Payload claim4EmptyStore).revenue.length
      ∧ (fullSeed claim4Payload (fullSeed claim4Payload claim4EmptyStore)).invoices.length
        = (fullSeed claim4Payload claim4EmptyStore).invoices.length) :=
  ⟨by decide, by decide, by decide,
    claim4_seed_idempotent claim4Payload claim4EmptyStore
      (fullSeed claim4Payload claim4EmptyStore)
      (fullSeed claim4Payload (fullSeed claim4Payload claim4EmptyStore))
      (by decide) (by decide) (by decide)⟩

/-- Claim C9: `seedDatabase` runs its stages in the fixed order users,
customers, revenue, invoices; when a stage fails, the orchestrator
propagates that stage's own failure and executes none of the remaining
stages — the execution log is exactly the prefix of the stage order ending
at the failing stage; when no stage fails, all four stages run in order and
the composed store is returned. -/
theorem claim9_seed_order_abort (failsAt : SeedStage → Bool) (pld : SeedData)
    (s : DataStore) :
    (failsAt SeedStage.users = true →
      seedDatabase failsAt pld s = (Except.error SeedStage.users, [SeedStage.users]))
    ∧ (failsAt SeedStage.users = false → failsAt SeedStage.customers = true →
      seedDatabase failsAt pld s
        = (Except.error SeedStage.customers, [SeedStage.users, SeedStage.customers]))
    ∧ (failsAt SeedStage.users = false → failsAt SeedStage.customers = false →
        failsAt SeedStage.revenue = true →
      seedDatabase failsAt pld s = (Except.error SeedStage.revenue,
        [SeedStage.users, SeedStage.customers, SeedStage.revenue]))
    ∧ (failsAt SeedStage.users = false → failsAt SeedStage.customers = false →
        failsAt SeedStage.revenue = false → failsAt SeedStage.invoices = true →
      seedDatabase failsAt pld s = (Except.error SeedStage.invoices, stageOrder))
    ∧ (failsAt SeedStage.users = false → failsAt SeedStage.customers = false →
        failsAt SeedStage.revenue = false → failsAt SeedStage.invoices = false →
      seedDatabase failsAt pld s = (Except.ok (fullSeed pld s), stageOrder)) := by
  refine ⟨?failU, ?failC, ?failR, ?failI, ?allPass⟩ <;> intros <;>
    simp [seedDatabase, runStage, fullSeed, seedUsersStep, seedCustomersStep,
      seedRevenueStep, *]

/-- Witness for claim C9: with the store failing during the revenue stage,
seeding the concrete payload stops at revenue and reports its error. -/
theorem claim9_witness :
    ((fun st => st == SeedStage.revenue) SeedStage.users = false)
    ∧ ((fun st => st == SeedStage.revenue) SeedStage.customers = false)
    ∧ ((fun st => st == SeedStage.revenue) SeedStage.revenue = true)
    ∧ seedDatabase (fun st => st == SeedStage.revenue) claim4Payload claim4EmptyStore
        = (Except.error SeedStage.revenue,
           [SeedStage.users, SeedStage.customers, SeedStage.revenue]) :=
  ⟨by decide, by decide, by decide,
    (claim9_seed_order_abort (fun st => st == SeedStage.revenue) claim4Payload
      claim4EmptyStore).2.2.1 (by decide) (by decide) (by decide)⟩

/-- Claim C2 fails on the Prisma implementation of `fetchCardData`
(`part_004` lines 63-113): evaluating the issuance-dependency structure at
the pending-sum sub-query shows it is issued only after the paid-sum
sub-query completes (it is created inside the `.then` continuation attached
to the paid aggregate), while the drizzle implementation (`part_003` lines
170-211) issues all four sub-queries without waiting on any completion —
and the Prisma file's own comment (lines 65-67) claims the queries are
initialized in parallel. -/
theorem claim2_prisma_sequenced_issuance :
    prismaCardIssueDependency CardSubQuery.pendingSum = some CardSubQuery.paidSum
    ∧ (∀ sq : CardSubQuery, drizzleCardIssueDependency sq = none) := by
  refine ⟨rfl, ?_⟩
  intro sq
  rfl
